import Mathlib

/-!
Shallow embedding of the TowerTrack Express backend (towerTrack-server-ph-public).

The repository holds several near-duplicate revisions of one server:
`src/index.js` plus the revisions in `src/unnamed/part_000` (whose second half
is a serverless rewrite), `part_001`, `part_002` and `part_003`.

MongoDB collections are embedded as Lean lists of records kept in insertion
order; `findOne` is `List.find?`, `countDocuments` is `List.filter` + length,
`insertOne` appends, `deleteOne` removes the first match, `updateOne` edits the
first match and reports matched/modified counts.  Timestamps (`new Date()`)
are `Nat` parameters, Mongo object ids are `Nat` fields.  JavaScript string
truthiness (`!s` rejects both `undefined` and `""`) is modelled on
`Option String`.  JWT cryptography is abstracted by a verification oracle
`String → VerifyOutcome` passed as a parameter; the middleware only inspects
the outcome, exactly as the code only inspects the callback result of
`jwt.verify`.
-/

namespace TowerTrack

/-- A document of the `users` collection: `{ email, name, role }`. -/
structure UserRec where
  email : String
  name : String
  role : String
deriving DecidableEq

/-- A document of the `agreements` collection as inserted by `POST /agreements`
(`{ userName, userEmail, floorNo, blockName, apartmentNo, rent, status,
createdAt }`), with the Mongo id `aid` and the optional `updatedAt` field that
`PATCH /agreements/:id/status` in `src/index.js` adds via `$set`. -/
structure Agreement where
  aid : Nat
  userName : String
  userEmail : String
  floorNo : Nat
  blockName : String
  apartmentNo : Nat
  rent : Nat
  status : String
  createdAt : Nat
  updatedAt : Option Nat
deriving DecidableEq

/-- A document of the `notices` collection as inserted by `POST /notices/issue`:
`{ userEmail, apartmentId, reason, noticeCount, status, date }`. -/
structure Notice where
  userEmail : String
  apartmentId : Nat
  reason : String
  noticeCount : Nat
  status : String
  date : Nat
deriving DecidableEq

/-- The database state touched by the claims: the `agreements`, `users` and
`notices` collections of `towerTrackDB`. -/
structure DB where
  agreements : List Agreement
  users : List UserRec
  notices : List Notice
deriving DecidableEq

/-- `usersCollection.findOne({ email })`. -/
def findUser (users : List UserRec) (e : String) : Option UserRec :=
  users.find? (fun u => u.email == e)

/-- `agreementsCollection.findOne({ userEmail })`. -/
def findAgreementByEmail (l : List Agreement) (e : String) : Option Agreement :=
  l.find? (fun a => a.userEmail == e)

/-- `db.collection("agreements").deleteOne({ userEmail })`: removes the first
matching document, if any. -/
def deleteOneAgreement : List Agreement → String → List Agreement
  | [], _ => []
  | a :: t, e => if a.userEmail == e then t else a :: deleteOneAgreement t e

/-- `db.collection("users").updateOne({ email }, { $set: { role } })`: rewrites
the role of the first matching document, if any. -/
def updateOneUserRole : List UserRec → String → String → List UserRec
  | [], _, _ => []
  | u :: t, e, r =>
    if u.email == e then { u with role := r } :: t else u :: updateOneUserRole t e r

/-- JavaScript truthiness of an optional string: `undefined` and `""` are
falsy, every other string is truthy. -/
def strTruthy : Option String → Bool
  | none => false
  | some s => s != ""

/-! ### Session token verification (`jwt.verify`) -/

/-- Outcome of `jwt.verify(token, JWT_SECRET)`: success with the decoded claim
`{ email, name? }`, or one of the failure modes (expired token, signature
mismatch, malformed token).  The middleware treats every failure alike. -/
inductive VerifyOutcome where
  | ok (email : String) (name : Option String)
  | expired
  | badSignature
  | malformed
deriving DecidableEq

/-- Result of a middleware step: call `next()` or answer with a status code. -/
inductive MwStep where
  | next
  | reject (code : Nat)
deriving DecidableEq

/-- Result of the `verifyJWT` middleware: proceed with the decoded claim
attached to `req.decoded`, or answer with a status code. -/
inductive JwtStep where
  | proceed (email : String) (name : Option String)
  | reject (code : Nat)
deriving DecidableEq

/-- `verifyJWT` (identical in every revision): no `token` cookie → 401
Unauthorized; `jwt.verify` failure of any kind → 403 Forbidden; success →
`req.decoded = decoded; next()`. -/
def verifyJWT (verify : String → VerifyOutcome) (cookieToken : Option String) : JwtStep :=
  match cookieToken with
  | none => .reject 401
  | some t =>
    match verify t with
    | .ok e n => .proceed e n
    | _ => .reject 403

/-- `optionalJWT` from `src/index.js`: attaches `req.decoded` when the cookie
verifies, and calls `next()` unconditionally — it never rejects. -/
def optionalJWT (verify : String → VerifyOutcome) (cookieToken : Option String) :
    Option (String × Option String) :=
  match cookieToken with
  | none => none
  | some t =>
    match verify t with
    | .ok e n => some (e, n)
    | _ => none

/-- `verifyAdmin` from `src/index.js` lines 97–107: look up the user record of
`req.decoded.email`; reject 403 when there is no record or its role is not
`"admin"`. -/
def verifyAdmin (users : List UserRec) (decodedEmail : String) : MwStep :=
  match findUser users decodedEmail with
  | none => .reject 403
  | some u => if u.role == "admin" then .next else .reject 403

/-- `verifyRole(roles)` from `src/unnamed/part_003` lines 98–107: missing
`req.decoded.email` → 403; identity with no user record → 404 "User not
found"; otherwise compare the stored role against the permitted set. -/
def verifyRole_part003 (roles : List String) (users : List UserRec)
    (decodedEmail : Option String) : MwStep :=
  match decodedEmail with
  | none => .reject 403
  | some e =>
    match findUser users e with
    | none => .reject 404
    | some u => if roles.contains u.role then .next else .reject 403

/-- `verifyRole(roles)` from the serverless revision in `src/unnamed/part_000`
lines 475–484: missing `req.decoded.email` → 401; the effective role is
`user?.role || "user"`, so an identity without a user record is evaluated with
the baseline role `"user"` against the permitted set. -/
def verifyRole_part000 (roles : List String) (users : List UserRec)
    (decodedEmail : Option String) : MwStep :=
  match decodedEmail with
  | none => .reject 401
  | some e =>
    let effectiveRole :=
      match findUser users e with
      | some u => u.role
      | none => "user"
    if roles.contains effectiveRole then .next else .reject 403

/-! ### Escalation engine: `POST /notices/issue` -/

/-- `db.collection("notices").countDocuments({ userEmail, status: "active" })`. -/
def activeNoticeCount (db : DB) (e : String) : Nat :=
  (db.notices.filter (fun n => n.userEmail == e && n.status == "active")).length

/-- The `POST /notices/issue` handler body (`src/index.js` lines 444–472, same
logic in `part_000` and `part_003`): count the active notices of `userEmail`,
insert a new notice with `noticeCount = count + 1` and status `"active"`, and
when that count reaches 3 or more delete the agreement of the tenant
(`deleteOne`) and reset the role of the tenant to `"user"` (`updateOne`).
Returns the new database state together with the inserted notice. -/
def issueNotice (db : DB) (userEmail : String) (apartmentId : Nat) (reason : String)
    (now : Nat) : DB × Notice :=
  let cnt := activeNoticeCount db userEmail
  let notice : Notice :=
    { userEmail := userEmail, apartmentId := apartmentId, reason := reason
      noticeCount := cnt + 1, status := "active", date := now }
  let db1 : DB := { db with notices := db.notices ++ [notice] }
  let db2 : DB :=
    if notice.noticeCount ≥ 3 then
      { db1 with
        agreements := deleteOneAgreement db1.agreements userEmail
        users := updateOneUserRole db1.users userEmail "user" }
    else db1
  (db2, notice)

/-! ### Startup reconciler: `cleanDuplicateAgreements` -/

/-- The aggregation group of one email key: all agreement documents whose
`userEmail` equals `e`, in collection order (`$push: "$_id"` order). -/
def agreementGroup (l : List Agreement) (e : String) : List Agreement :=
  l.filter (fun a => a.userEmail == e)

/-- `dup.docs.slice(1)` for the group of `e`, guarded by the `$match`
`count > 1` stage: the ids scheduled for deletion from that group. -/
def duplicateIdsFor (l : List Agreement) (e : String) : List Nat :=
  if ((agreementGroup l e).map (fun a => a.aid)).length > 1 then
    ((agreementGroup l e).map (fun a => a.aid)).tail
  else []

/-- All ids deleted by the reconciliation loop: the union over the group keys
(the distinct emails of the collection) of the per-group `slice(1)` ids. -/
def idsToDelete (l : List Agreement) : List Nat :=
  ((l.map (fun a => a.userEmail)).dedup).flatMap (fun e => duplicateIdsFor l e)

/-- `cleanDuplicateAgreements` (`src/index.js` lines 52–70, identical loop in
`part_000`, `part_001` and `part_003`): delete every document whose id was
scheduled by some duplicate group; everything else survives. -/
def cleanDuplicateAgreements (l : List Agreement) : List Agreement :=
  l.filter (fun a => !(idsToDelete l).contains a.aid)

/-! ### Agreement handlers -/

/-- The `POST /agreements` handler body of `src/index.js` lines 159–185, after
`verifyJWT` (`userEmail`/`userName` come from `req.decoded`): falsy email or
name → 400; an existing agreement with the same `userEmail` → 409 with no
insertion; otherwise insert a `"pending"` agreement.  Returns the collection
and the response status code. -/
def postAgreements (agreements : List Agreement) (decodedEmail decodedName : Option String)
    (floorNo : Nat) (blockName : String) (apartmentNo : Nat) (rent : Nat)
    (now : Nat) (newId : Nat) : List Agreement × Nat :=
  match decodedEmail, decodedName with
  | some e, some n =>
    if e == "" || n == "" then (agreements, 400)
    else
      match findAgreementByEmail agreements e with
      | some _ => (agreements, 409)
      | none =>
        (agreements ++
          [{ aid := newId, userName := n, userEmail := e, floorNo := floorNo
             blockName := blockName, apartmentNo := apartmentNo, rent := rent
             status := "pending", createdAt := now, updatedAt := none }], 201)
  | _, _ => (agreements, 400)

/-- Stable insertion into a list sorted by `createdAt` descending. -/
def insertByCreatedAtDesc (a : Agreement) : List Agreement → List Agreement
  | [] => [a]
  | b :: t => if b.createdAt < a.createdAt then a :: b :: t else b :: insertByCreatedAtDesc a t

/-- `.sort({ createdAt: -1 })`: the listing ordered by creation time,
newest first. -/
def sortByCreatedAtDesc : List Agreement → List Agreement
  | [] => []
  | a :: t => insertByCreatedAtDesc a (sortByCreatedAtDesc t)

/-- `const query = status ? { status } : {}` — the find filter of
`GET /agreements`, identical in every revision. -/
def agreementsQuery (status : Option String) : Agreement → Bool :=
  match status with
  | some s => if s != "" then (fun a => a.status == s) else fun _ => true
  | none => fun _ => true

/-- The `GET /agreements` handler body (identical in every revision):
`find(query).sort({ createdAt: -1 })`. -/
def getAgreementsHandler (agreements : List Agreement) (status : Option String) :
    List Agreement :=
  sortByCreatedAtDesc (agreements.filter (agreementsQuery status))

/-- Response of a listing route: the body, or a rejection status code. -/
inductive ListResponse where
  | ok (body : List Agreement)
  | reject (code : Nat)
deriving DecidableEq

/-- `GET /agreements` in `src/unnamed/part_003` lines 307–317: the chain
`verifyJWT, verifyAdmin` (where `verifyAdmin = verifyRole(["admin"])`) in
front of the listing handler. -/
def getAgreementsRoute_part003 (verify : String → VerifyOutcome) (users : List UserRec)
    (agreements : List Agreement) (cookieToken : Option String) (status : Option String) :
    ListResponse :=
  match verifyJWT verify cookieToken with
  | .reject c => .reject c
  | .proceed e _ =>
    match verifyRole_part003 ["admin"] users (some e) with
    | .reject c => .reject c
    | .next => .ok (getAgreementsHandler agreements status)

/-- `GET /agreements` in `src/index.js` lines 187–196: the only middleware is
`optionalJWT`, which never rejects, and the handler never reads `req.decoded`,
so every caller receives the listing. -/
def getAgreementsRoute_index (verify : String → VerifyOutcome)
    (agreements : List Agreement) (cookieToken : Option String) (status : Option String) :
    ListResponse :=
  let _decoded := optionalJWT verify cookieToken
  .ok (getAgreementsHandler agreements status)

/-- The `$set: { status, updatedAt: new Date() }` of
`PATCH /agreements/:id/status` in `src/index.js`. -/
def setAgreementStatus (a : Agreement) (s : String) (now : Nat) : Agreement :=
  { a with status := s, updatedAt := some now }

/-- The `$set: { status }` of `PATCH /agreements/:id/status` in
`src/unnamed/part_003` (no timestamp is written there). -/
def setAgreementStatusOnly (a : Agreement) (s : String) : Agreement :=
  { a with status := s }

/-- `updateOne({ _id }, { $set: { status, updatedAt } })` as executed by
`src/index.js`: update the first matching document and report
`(collection, matchedCount, modifiedCount)`; a document counts as modified
only when the `$set` actually changes it. -/
def updateOneAgreementStatus_index : List Agreement → Nat → String → Nat →
    List Agreement × Nat × Nat
  | [], _, _, _ => ([], 0, 0)
  | a :: t, id, s, now =>
    if a.aid == id then
      (setAgreementStatus a s now :: t, 1, if setAgreementStatus a s now == a then 0 else 1)
    else
      let r := updateOneAgreementStatus_index t id s now
      (a :: r.1, r.2.1, r.2.2)

/-- `updateOne({ _id }, { $set: { status } })` as executed by
`src/unnamed/part_003`. -/
def updateOneAgreementStatus_part003 : List Agreement → Nat → String →
    List Agreement × Nat × Nat
  | [], _, _ => ([], 0, 0)
  | a :: t, id, s =>
    if a.aid == id then
      (setAgreementStatusOnly a s :: t, 1, if setAgreementStatusOnly a s == a then 0 else 1)
    else
      let r := updateOneAgreementStatus_part003 t id s
      (a :: r.1, r.2.1, r.2.2)

/-- The `PATCH /agreements/:id/status` handler of `src/index.js` lines
223–234: falsy `status` → 400; then `updateOne` and answer 200 when
`result.modifiedCount > 0`, else 404 ("Not found or unchanged"). -/
def patchAgreementStatus_index (agreements : List Agreement) (id : Nat)
    (status : Option String) (now : Nat) : List Agreement × Nat :=
  match status with
  | none => (agreements, 400)
  | some s =>
    if s == "" then (agreements, 400)
    else
      let r := updateOneAgreementStatus_index agreements id s now
      if r.2.2 > 0 then (r.1, 200) else (r.1, 404)

/-- The `PATCH /agreements/:id/status` handler of `src/unnamed/part_003` lines
332–349, after its admin gate: falsy `status` → 400; malformed object id →
400 (`validId` models `isValidObjectId`); then `updateOne` and answer 404
exactly when `result.matchedCount` is zero. -/
def patchAgreementStatus_part003 (agreements : List Agreement) (id : Nat) (validId : Bool)
    (status : Option String) : List Agreement × Nat :=
  match status with
  | none => (agreements, 400)
  | some s =>
    if s == "" then (agreements, 400)
    else if !validId then (agreements, 400)
    else
      let r := updateOneAgreementStatus_part003 agreements id s
      if r.2.1 > 0 then (r.1, 200) else (r.1, 404)

/-- A token-protected admin route of `src/index.js` (for example
`GET /coupons`, which is declared as `verifyJWT, verifyAdmin`): the composed
middleware chain in front of the handler.  `MwStep.next` means the handler is
reached. -/
def adminGate (verify : String → VerifyOutcome) (users : List UserRec)
    (cookieToken : Option String) : MwStep :=
  match verifyJWT verify cookieToken with
  | .reject c => .reject c
  | .proceed e _ => verifyAdmin users e

/-! ## Claim theorems -/

/-- Claim C3: on a token-protected route, a missing token cookie is rejected
with 401 Unauthorized, while a present credential that is expired, carries a
bad signature, or is malformed is rejected with 403 Forbidden — in particular
an expired credential yields Forbidden, never Unauthorized. -/
theorem verifyJWT_auth_errors (verify : String → VerifyOutcome) :
    verifyJWT verify none = JwtStep.reject 401 ∧
    (∀ t, verify t = VerifyOutcome.expired → verifyJWT verify (some t) = JwtStep.reject 403) ∧
    (∀ t, verify t = VerifyOutcome.badSignature → verifyJWT verify (some t) = JwtStep.reject 403) ∧
    (∀ t, verify t = VerifyOutcome.malformed → verifyJWT verify (some t) = JwtStep.reject 403) := by
  refine ⟨rfl, ?_, ?_, ?_⟩ <;> intro t h <;> simp [verifyJWT, h]

/-- Witness for C3 at a concrete verifier that reports every token expired. -/
theorem verifyJWT_auth_errors_witness :
    verifyJWT (fun _ => VerifyOutcome.expired) none = JwtStep.reject 401 ∧
    verifyJWT (fun _ => VerifyOutcome.expired) (some "tok") = JwtStep.reject 403 :=
  ⟨(verifyJWT_auth_errors (fun _ => VerifyOutcome.expired)).1,
   (verifyJWT_auth_errors (fun _ => VerifyOutcome.expired)).2.1 "tok" rfl⟩

/-- Claim C7: a route whose permitted-role set is `{"admin"}` rejects a caller
whose credential verifies but whose resolved role is `"member"` with 403, and
the handler is not reached; this holds both for the `verifyJWT, verifyAdmin`
chain of `src/index.js` and for `verifyRole(["admin"])` of
`src/unnamed/part_003`. -/
theorem admin_route_rejects_member (verify : String → VerifyOutcome)
    (users : List UserRec) (t e : String) (nm : Option String) (u : UserRec)
    (hv : verify t = VerifyOutcome.ok e nm)
    (hu : findUser users e = some u)
    (hrole : u.role = "member") :
    adminGate verify users (some t) = MwStep.reject 403 ∧
    verifyRole_part003 ["admin"] users (some e) = MwStep.reject 403 := by
  constructor
  · simp [adminGate, verifyJWT, hv, verifyAdmin, hu, hrole]
  · simp [verifyRole_part003, hu, hrole]

/-- Witness for C7: a concrete member caller with a valid credential. -/
theorem admin_route_rejects_member_witness :
    adminGate (fun _ => VerifyOutcome.ok "m@x.com" none)
      [{ email := "m@x.com", name := "M", role := "member" }] (some "tok") =
        MwStep.reject 403 ∧
    verifyRole_part003 ["admin"] [{ email := "m@x.com", name := "M", role := "member" }]
      (some "m@x.com") = MwStep.reject 403 :=
  admin_route_rejects_member (fun _ => VerifyOutcome.ok "m@x.com" none)
    [{ email := "m@x.com", name := "M", role := "member" }] "tok" "m@x.com" none
    { email := "m@x.com", name := "M", role := "member" } rfl rfl rfl

/-- Counterexample to C2 as stated: in the `verifyRole` of
`src/unnamed/part_003`, an identity with no user record is not resolved to the
baseline role `"user"` and evaluated against the permitted set (which here
contains `"user"`, so the claim would let the request proceed); the lookup
fails and the request is rejected with 404. -/
theorem verifyRole_part003_no_default_counterexample :
    findUser [] "ghost@x.com" = none ∧
    verifyRole_part003 ["admin", "member", "user"] [] (some "ghost@x.com") =
      MwStep.reject 404 ∧
    verifyRole_part003 ["admin", "member", "user"] [] (some "ghost@x.com") ≠ MwStep.next :=
  ⟨rfl, rfl, by decide⟩

/-- Claim C2 as amended: only the `verifyRole` of the serverless revision in
`src/unnamed/part_000` resolves an identity with no user record to the
baseline role `"user"` and evaluates it against the permitted-role set; the
`verifyRole` of `src/unnamed/part_003` instead fails the lookup with 404
"User not found". -/
theorem verifyRole_missing_user_resolution (roles : List String) (users : List UserRec)
    (e : String) (h : findUser users e = none) :
    verifyRole_part000 roles users (some e) =
      (if roles.contains "user" then MwStep.next else MwStep.reject 403) ∧
    verifyRole_part003 roles users (some e) = MwStep.reject 404 := by
  constructor
  · simp [verifyRole_part000, h]
  · simp [verifyRole_part003, h]

/-- Witness for the amended C2 at an empty user collection. -/
theorem verifyRole_missing_user_resolution_witness :
    verifyRole_part000 ["member", "user"] [] (some "ghost2@x.com") =
      (if ["member", "user"].contains "user" then MwStep.next else MwStep.reject 403) ∧
    verifyRole_part003 ["member", "user"] [] (some "ghost2@x.com") = MwStep.reject 404 :=
  verifyRole_missing_user_resolution ["member", "user"] [] "ghost2@x.com" rfl

/-- Claim C4: when some agreement with the given `userEmail` already exists,
`POST /agreements` answers 409 and inserts nothing, whatever the status of the
existing agreement is (the lookup `findOne({ userEmail })` ignores status). -/
theorem postAgreements_conflict (agreements : List Agreement) (a : Agreement) (e n : String)
    (floorNo : Nat) (blockName : String) (apartmentNo : Nat) (rent : Nat) (now newId : Nat)
    (ha : a ∈ agreements) (hae : a.userEmail = e) (he : e ≠ "") (hn : n ≠ "") :
    postAgreements agreements (some e) (some n) floorNo blockName apartmentNo rent now newId
      = (agreements, 409) := by
  have hfind : ∃ b, findAgreementByEmail agreements e = some b := by
    have hsome : (agreements.find? (fun b => b.userEmail == e)).isSome := by
      rw [List.find?_isSome]
      exact ⟨a, ha, by simp [hae]⟩
    exact Option.isSome_iff_exists.mp hsome
  obtain ⟨b, hb⟩ := hfind
  simp [postAgreements, he, hn, hb]

/-- Witness for C4: a second application by a tenant whose agreement is
already `"checked"` is answered 409 and the collection is unchanged. -/
theorem postAgreements_conflict_witness :
    postAgreements
      [{ aid := 1, userName := "T", userEmail := "a@x.com", floorNo := 2, blockName := "B",
         apartmentNo := 5, rent := 100, status := "checked", createdAt := 0, updatedAt := none }]
      (some "a@x.com") (some "T") 3 "C" 6 120 9 2 =
      ([{ aid := 1, userName := "T", userEmail := "a@x.com", floorNo := 2, blockName := "B",
          apartmentNo := 5, rent := 100, status := "checked", createdAt := 0,
          updatedAt := none }], 409) :=
  postAgreements_conflict _
    { aid := 1, userName := "T", userEmail := "a@x.com", floorNo := 2, blockName := "B",
      apartmentNo := 5, rent := 100, status := "checked", createdAt := 0, updatedAt := none }
    "a@x.com" "T" 3 "C" 6 120 9 2 (by simp) rfl (by decide) (by decide)

/-! ## Escalation lemmas -/

/-- The notice returned by `issueNotice` carries the prior active count plus
one and status `"active"`. -/
theorem issueNotice_notice (db : DB) (e : String) (apt : Nat) (r : String) (t : Nat) :
    (issueNotice db e apt r t).2 =
      { userEmail := e, apartmentId := apt, reason := r,
        noticeCount := activeNoticeCount db e + 1, status := "active", date := t } := rfl

/-- Issuing a notice appends it to the `notices` collection, in both branches
of the cascade. -/
theorem issueNotice_notices (db : DB) (e : String) (apt : Nat) (r : String) (t : Nat) :
    (issueNotice db e apt r t).1.notices = db.notices ++ [(issueNotice db e apt r t).2] := by
  unfold issueNotice
  dsimp only
  split <;> rfl

/-- Each issuance increases the active count of the tenant by exactly one. -/
theorem activeNoticeCount_issue (db : DB) (e : String) (apt : Nat) (r : String) (t : Nat) :
    activeNoticeCount (issueNotice db e apt r t).1 e = activeNoticeCount db e + 1 := by
  rw [activeNoticeCount, issueNotice_notices, List.filter_append]
  simp [activeNoticeCount, issueNotice_notice]

/-- Below the threshold, the cascade branch is not taken: `agreements` and
`users` are untouched. -/
theorem issueNotice_state_lt (db : DB) (e : String) (apt : Nat) (r : String) (t : Nat)
    (h : activeNoticeCount db e + 1 < 3) :
    (issueNotice db e apt r t).1.agreements = db.agreements ∧
    (issueNotice db e apt r t).1.users = db.users := by
  unfold issueNotice
  dsimp only
  rw [if_neg (by omega)]
  exact ⟨rfl, rfl⟩

/-- At or above the threshold, the cascade runs: `deleteOne` on the agreement
of the tenant and `updateOne` resetting the role of the tenant. -/
theorem issueNotice_state_ge (db : DB) (e : String) (apt : Nat) (r : String) (t : Nat)
    (h : 3 ≤ activeNoticeCount db e + 1) :
    (issueNotice db e apt r t).1.agreements = deleteOneAgreement db.agreements e ∧
    (issueNotice db e apt r t).1.users = updateOneUserRole db.users e "user" := by
  unfold issueNotice
  dsimp only
  rw [if_pos (by omega)]
  exact ⟨rfl, rfl⟩

/-- When the collection holds at most one agreement of the tenant,
`deleteOne({ userEmail })` leaves none. -/
theorem filter_deleteOneAgreement_eq_nil (l : List Agreement) (e : String)
    (h : (l.filter (fun a => a.userEmail == e)).length ≤ 1) :
    (deleteOneAgreement l e).filter (fun a => a.userEmail == e) = [] := by
  induction l with
  | nil => rfl
  | cons a t ih =>
    rw [List.filter_cons] at h
    rw [deleteOneAgreement]
    by_cases hae : (a.userEmail == e) = true
    · rw [if_pos hae]
      rw [if_pos hae] at h
      have ht : (t.filter (fun a => a.userEmail == e)).length = 0 := by
        rw [List.length_cons] at h
        omega
      exact List.length_eq_zero.mp ht
    · rw [if_neg hae]
      rw [if_neg hae] at h
      rw [List.filter_cons, if_neg hae]
      exact ih h

/-- When the collection holds at most one user record of the email,
`updateOne({ email }, { $set: { role: "user" } })` leaves every record of
that email with role `"user"`. -/
theorem updateOneUserRole_role (l : List UserRec) (e : String)
    (h : (l.filter (fun u => u.email == e)).length ≤ 1) :
    ∀ u ∈ updateOneUserRole l e "user", u.email = e → u.role = "user" := by
  induction l with
  | nil => intro u hu; simp [updateOneUserRole] at hu
  | cons a t ih =>
    intro u hu hue
    rw [List.filter_cons] at h
    rw [updateOneUserRole] at hu
    by_cases hae : (a.email == e) = true
    · rw [if_pos hae] at hu
      rw [if_pos hae] at h
      rcases List.mem_cons.mp hu with h1 | h2
      · rw [h1]
      · exfalso
        have ht : (t.filter (fun u => u.email == e)).length = 0 := by
          rw [List.length_cons] at h
          omega
        have hnil := List.length_eq_zero.mp ht
        have : u ∈ t.filter (fun u => u.email == e) :=
          List.mem_filter.mpr ⟨h2, by simp [hue]⟩
        rw [hnil] at this
        exact List.not_mem_nil u this
    · rw [if_neg hae] at hu
      rw [if_neg hae] at h
      rcases List.mem_cons.mp hu with h1 | h2
      · exfalso
        exact hae (by rw [← h1]; simp [hue])
      · exact ih h u h2 hue

/-- Claim C1: starting from a state with no active notices for the tenant (and
the at-most-one invariants of the unique indexes on `agreements.userEmail` and
`users.email`), the 1st, 2nd and 3rd issuance record sequence counts 1, 2 and
3, each notice is persisted `"active"`; upon the 3rd the agreement of the
tenant is deleted and the role of the tenant is reset to `"user"`; a 4th
issuance still succeeds and records count 4 (nothing blocks notices past the
threshold). -/
theorem issueNotice_three_strikes
    (db0 db1 db2 db3 db4 : DB) (n1 n2 n3 n4 : Notice)
    (e : String) (apt : Nat) (r : String) (t1 t2 t3 t4 : Nat)
    (h0 : activeNoticeCount db0 e = 0)
    (hag : (db0.agreements.filter (fun a => a.userEmail == e)).length ≤ 1)
    (hus : (db0.users.filter (fun u => u.email == e)).length ≤ 1)
    (e1 : issueNotice db0 e apt r t1 = (db1, n1))
    (e2 : issueNotice db1 e apt r t2 = (db2, n2))
    (e3 : issueNotice db2 e apt r t3 = (db3, n3))
    (e4 : issueNotice db3 e apt r t4 = (db4, n4)) :
    n1.noticeCount = 1 ∧ n1.status = "active" ∧
    n2.noticeCount = 2 ∧ n2.status = "active" ∧
    n3.noticeCount = 3 ∧ n3.status = "active" ∧
    db3.agreements.filter (fun a => a.userEmail == e) = [] ∧
    (∀ u ∈ db3.users, u.email = e → u.role = "user") ∧
    n4.noticeCount = 4 ∧ n4.status = "active" := by
  have c1 : activeNoticeCount db1 e = 1 := by
    have hc := activeNoticeCount_issue db0 e apt r t1
    rw [e1] at hc
    simpa [h0] using hc
  have c2 : activeNoticeCount db2 e = 2 := by
    have hc := activeNoticeCount_issue db1 e apt r t2
    rw [e2] at hc
    simpa [c1] using hc
  have c3 : activeNoticeCount db3 e = 3 := by
    have hc := activeNoticeCount_issue db2 e apt r t3
    rw [e3] at hc
    simpa [c2] using hc
  have hn1 : n1 =
      { userEmail := e, apartmentId := apt, reason := r,
        noticeCount := activeNoticeCount db0 e + 1, status := "active", date := t1 } := by
    have hn := issueNotice_notice db0 e apt r t1
    rw [e1] at hn
    exact hn
  have hn2 : n2 =
      { userEmail := e, apartmentId := apt, reason := r,
        noticeCount := activeNoticeCount db1 e + 1, status := "active", date := t2 } := by
    have hn := issueNotice_notice db1 e apt r t2
    rw [e2] at hn
    exact hn
  have hn3 : n3 =
      { userEmail := e, apartmentId := apt, reason := r,
        noticeCount := activeNoticeCount db2 e + 1, status := "active", date := t3 } := by
    have hn := issueNotice_notice db2 e apt r t3
    rw [e3] at hn
    exact hn
  have hn4 : n4 =
      { userEmail := e, apartmentId := apt, reason := r,
        noticeCount := activeNoticeCount db3 e + 1, status := "active", date := t4 } := by
    have hn := issueNotice_notice db3 e apt r t4
    rw [e4] at hn
    exact hn
  have s1 : db1.agreements = db0.agreements ∧ db1.users = db0.users := by
    have hs := issueNotice_state_lt db0 e apt r t1 (by omega)
    rw [e1] at hs
    exact hs
  have s2 : db2.agreements = db1.agreements ∧ db2.users = db1.users := by
    have hs := issueNotice_state_lt db1 e apt r t2 (by omega)
    rw [e2] at hs
    exact hs
  have s3 : db3.agreements = deleteOneAgreement db2.agreements e ∧
      db3.users = updateOneUserRole db2.users e "user" := by
    have hs := issueNotice_state_ge db2 e apt r t3 (by omega)
    rw [e3] at hs
    exact hs
  have hag2 : (db2.agreements.filter (fun a => a.userEmail == e)).length ≤ 1 := by
    rw [s2.1, s1.1]; exact hag
  have hus2 : (db2.users.filter (fun u => u.email == e)).length ≤ 1 := by
    rw [s2.2, s1.2]; exact hus
  refine ⟨by rw [hn1, h0], by rw [hn1], by rw [hn2, c1], by rw [hn2],
    by rw [hn3, c2], by rw [hn3], ?_, ?_, by rw [hn4, c3], by rw [hn4]⟩
  · rw [s3.1]
    exact filter_deleteOneAgreement_eq_nil db2.agreements e hag2
  · rw [s3.2]
    exact updateOneUserRole_role db2.users e hus2

/-- The concrete starting state of the C1 witness: one `"checked"` agreement
and one `"member"` user for `a@x.com`, no notices. -/
def c1db0 : DB :=
  { agreements :=
      [{ aid := 1, userName := "T", userEmail := "a@x.com", floorNo := 2,
         blockName := "B", apartmentNo := 5, rent := 100, status := "checked",
         createdAt := 0, updatedAt := none }],
    users := [{ email := "a@x.com", name := "T", role := "member" }],
    notices := [] }

/-- First issuance of the C1 witness. -/
def c1step1 : DB × Notice := issueNotice c1db0 "a@x.com" 5 "late rent" 1

/-- Second issuance of the C1 witness. -/
def c1step2 : DB × Notice := issueNotice c1step1.1 "a@x.com" 5 "late rent" 2

/-- Third issuance of the C1 witness. -/
def c1step3 : DB × Notice := issueNotice c1step2.1 "a@x.com" 5 "late rent" 3

/-- Fourth issuance of the C1 witness. -/
def c1step4 : DB × Notice := issueNotice c1step3.1 "a@x.com" 5 "late rent" 4

/-- Witness for C1 at the concrete starting state `c1db0`. -/
theorem issueNotice_three_strikes_witness :
    c1step1.2.noticeCount = 1 ∧ c1step1.2.status = "active" ∧
    c1step2.2.noticeCount = 2 ∧ c1step2.2.status = "active" ∧
    c1step3.2.noticeCount = 3 ∧ c1step3.2.status = "active" ∧
    c1step3.1.agreements.filter (fun a => a.userEmail == "a@x.com") = [] ∧
    (∀ u ∈ c1step3.1.users, u.email = "a@x.com" → u.role = "user") ∧
    c1step4.2.noticeCount = 4 ∧ c1step4.2.status = "active" :=
  issueNotice_three_strikes c1db0 c1step1.1 c1step2.1 c1step3.1 c1step4.1
    c1step1.2 c1step2.2 c1step3.2 c1step4.2 "a@x.com" 5 "late rent" 1 2 3 4
    (by decide) (by decide) (by decide) rfl rfl rfl rfl

/-- Claim C10: the cascade condition is `noticeCount >= 3`, not an equality
test, so every issuance whose computed sequence count is 3 or more re-executes
the revocation: the agreement of the tenant is deleted again and the role of
the tenant is reset to `"user"` again — an agreement or elevated role
re-granted after the 3rd notice is revoked anew by the next issuance. -/
theorem issueNotice_cascade_rerun (db : DB) (e : String) (apt : Nat) (r : String) (t : Nat)
    (h : 3 ≤ activeNoticeCount db e + 1) :
    (issueNotice db e apt r t).2.noticeCount = activeNoticeCount db e + 1 ∧
    (issueNotice db e apt r t).1.agreements = deleteOneAgreement db.agreements e ∧
    (issueNotice db e apt r t).1.users = updateOneUserRole db.users e "user" ∧
    ((db.agreements.filter (fun a => a.userEmail == e)).length ≤ 1 →
      (issueNotice db e apt r t).1.agreements.filter (fun a => a.userEmail == e) = []) ∧
    ((db.users.filter (fun u => u.email == e)).length ≤ 1 →
      ∀ u ∈ (issueNotice db e apt r t).1.users, u.email = e → u.role = "user") := by
  have hs := issueNotice_state_ge db e apt r t h
  refine ⟨by rw [issueNotice_notice], hs.1, hs.2, ?_, ?_⟩
  · intro hag
    rw [hs.1]
    exact filter_deleteOneAgreement_eq_nil db.agreements e hag
  · intro hus
    rw [hs.2]
    exact updateOneUserRole_role db.users e hus

/-- The concrete state of the C10 witness: three active notices already on
record for `a@x.com`, with a re-granted agreement and a re-elevated role. -/
def c10db : DB :=
  { agreements :=
      [{ aid := 9, userName := "T", userEmail := "a@x.com", floorNo := 2,
         blockName := "B", apartmentNo := 5, rent := 100, status := "pending",
         createdAt := 10, updatedAt := none }],
    users := [{ email := "a@x.com", name := "T", role := "member" }],
    notices :=
      [{ userEmail := "a@x.com", apartmentId := 5, reason := "late rent", noticeCount := 1,
         status := "active", date := 1 },
       { userEmail := "a@x.com", apartmentId := 5, reason := "late rent", noticeCount := 2,
         status := "active", date := 2 },
       { userEmail := "a@x.com", apartmentId := 5, reason := "late rent", noticeCount := 3,
         status := "active", date := 3 }] }

/-- Witness for C10: the 4th issuance for `a@x.com` re-runs the cascade on the
re-granted agreement and re-elevated role of `c10db`. -/
theorem issueNotice_cascade_rerun_witness :
    (issueNotice c10db "a@x.com" 5 "noise" 11).2.noticeCount =
      activeNoticeCount c10db "a@x.com" + 1 ∧
    (issueNotice c10db "a@x.com" 5 "noise" 11).1.agreements =
      deleteOneAgreement c10db.agreements "a@x.com" ∧
    (issueNotice c10db "a@x.com" 5 "noise" 11).1.users =
      updateOneUserRole c10db.users "a@x.com" "user" ∧
    ((c10db.agreements.filter (fun a => a.userEmail == "a@x.com")).length ≤ 1 →
      (issueNotice c10db "a@x.com" 5 "noise" 11).1.agreements.filter
        (fun a => a.userEmail == "a@x.com") = []) ∧
    ((c10db.users.filter (fun u => u.email == "a@x.com")).length ≤ 1 →
      ∀ u ∈ (issueNotice c10db "a@x.com" 5 "noise" 11).1.users,
        u.email = "a@x.com" → u.role = "user") :=
  issueNotice_cascade_rerun c10db "a@x.com" 5 "noise" 11 (by decide)

/-! ## Reconciler lemmas -/

/-- Distinct Mongo ids (the uniqueness of `_id`) identify documents. -/
theorem aid_inj (l : List Agreement) (hids : (l.map (fun a => a.aid)).Nodup)
    {a b : Agreement} (ha : a ∈ l) (hb : b ∈ l) (hab : a.aid = b.aid) : a = b :=
  List.inj_on_of_nodup_map hids ha hb hab

/-- Every id scheduled for deletion from the group of `e` is an id of that
group. -/
theorem mem_duplicateIdsFor_sub {l : List Agreement} {e : String} {x : Nat}
    (h : x ∈ duplicateIdsFor l e) : x ∈ (agreementGroup l e).map (fun a => a.aid) := by
  unfold duplicateIdsFor at h
  split at h
  · exact List.mem_of_mem_tail h
  · exact absurd h (List.not_mem_nil x)

/-- Group ids inherit distinctness from the collection ids. -/
theorem nodup_group_ids (l : List Agreement) (e : String)
    (hids : (l.map (fun a => a.aid)).Nodup) :
    ((agreementGroup l e).map (fun a => a.aid)).Nodup :=
  hids.sublist ((List.filter_sublist l).map (fun a => a.aid))

/-- A document of the collection is scheduled for deletion exactly when its id
is scheduled by its own group: deletions scheduled by other group keys never
hit it. -/
theorem mem_idsToDelete_iff (l : List Agreement) (hids : (l.map (fun a => a.aid)).Nodup)
    {a : Agreement} (ha : a ∈ l) :
    a.aid ∈ idsToDelete l ↔ a.aid ∈ duplicateIdsFor l a.userEmail := by
  unfold idsToDelete
  rw [List.mem_flatMap]
  constructor
  · rintro ⟨e, _he, hmem⟩
    have hsub := mem_duplicateIdsFor_sub hmem
    obtain ⟨b, hb, hba⟩ := List.mem_map.mp hsub
    have hb' : b ∈ l.filter (fun a => a.userEmail == e) := hb
    have hbmf := List.mem_filter.mp hb'
    have hbl : b ∈ l := hbmf.1
    have hbe : b.userEmail = e := eq_of_beq hbmf.2
    have hba' : b = a := aid_inj l hids hbl ha hba
    subst hba'
    rw [hbe]
    exact hmem
  · intro hmem
    exact ⟨a.userEmail, List.mem_dedup.mpr (List.mem_map_of_mem _ ha), hmem⟩

/-- The key structural fact about the reconciliation pass: after the pass, the
group of every email is the first document of its original group (and nothing
when the group was empty). -/
theorem filter_cleanDuplicateAgreements (l : List Agreement)
    (hids : (l.map (fun a => a.aid)).Nodup) (e : String) :
    (cleanDuplicateAgreements l).filter (fun a => a.userEmail == e) =
      (l.filter (fun a => a.userEmail == e)).take 1 := by
  unfold cleanDuplicateAgreements
  rw [List.filter_comm]
  cases hg : l.filter (fun a => a.userEmail == e) with
  | nil => rfl
  | cons c rest =>
    have hcf : c ∈ l.filter (fun a => a.userEmail == e) := by
      rw [hg]; exact List.mem_cons_self c rest
    have hcmf := List.mem_filter.mp hcf
    have hcl : c ∈ l := hcmf.1
    have hce : c.userEmail = e := eq_of_beq hcmf.2
    have hrestl : ∀ y ∈ rest, y ∈ l ∧ y.userEmail = e := by
      intro y hy
      have hyf : y ∈ l.filter (fun a => a.userEmail == e) := by
        rw [hg]; exact List.mem_cons_of_mem c hy
      have hymf := List.mem_filter.mp hyf
      exact ⟨hymf.1, eq_of_beq hymf.2⟩
    have hgroup : agreementGroup l e = c :: rest := hg
    cases rest with
    | nil =>
      have hdup : duplicateIdsFor l e = [] := by
        unfold duplicateIdsFor
        rw [hgroup]
        rfl
      have hc : (!(idsToDelete l).contains c.aid) = true := by
        have hnot : c.aid ∉ idsToDelete l := by
          rw [mem_idsToDelete_iff l hids hcl, hce, hdup]
          exact List.not_mem_nil c.aid
        simp [List.elem_eq_mem, hnot]
      rw [List.filter_cons, if_pos hc]
      rfl
    | cons x rest2 =>
      have hdup : duplicateIdsFor l e = (x :: rest2).map (fun a => a.aid) := by
        unfold duplicateIdsFor
        rw [hgroup]
        rw [if_pos (by simp)]
        rfl
      have hnodupg := nodup_group_ids l e hids
      rw [hgroup] at hnodupg
      have hcnot : c.aid ∉ ((x :: rest2).map (fun a => a.aid)) := by
        have h2 : (List.map (fun a => a.aid) (c :: x :: rest2)).Nodup := hnodupg
        rw [List.map_cons] at h2
        exact (List.nodup_cons.mp h2).1
      have hc : (!(idsToDelete l).contains c.aid) = true := by
        have hnot : c.aid ∉ idsToDelete l := by
          rw [mem_idsToDelete_iff l hids hcl, hce, hdup]
          exact hcnot
        simp [List.elem_eq_mem, hnot]
      have hrest : ∀ y ∈ x :: rest2, (!(idsToDelete l).contains y.aid) = false := by
        intro y hy
        have hyl := (hrestl y hy).1
        have hye := (hrestl y hy).2
        have hyin : y.aid ∈ idsToDelete l := by
          rw [mem_idsToDelete_iff l hids hyl, hye, hdup]
          exact List.mem_map_of_mem _ hy
        simp [List.elem_eq_mem, hyin]
      rw [List.filter_cons, if_pos hc]
      have hnilrest : (x :: rest2).filter (fun a => !(idsToDelete l).contains a.aid) = [] :=
        List.filter_eq_nil_iff.mpr (by
          intro y hy
          rw [hrest y hy]
          simp)
      rw [hnilrest]
      rfl

/-- Claim C5: after the startup reconciliation pass (with the Mongo invariant
that `_id` values are distinct), every email has at most one agreement; every
survivor is a record that existed before the pass (the result is a sublist of
the input); every email that had at least one agreement keeps exactly one; and
the group of an email that had a single agreement is untouched. -/
theorem cleanDuplicateAgreements_spec (l : List Agreement)
    (hids : (l.map (fun a => a.aid)).Nodup) :
    (cleanDuplicateAgreements l).Sublist l ∧
    (∀ e, ((cleanDuplicateAgreements l).filter (fun a => a.userEmail == e)).length ≤ 1) ∧
    (∀ e, 1 ≤ (l.filter (fun a => a.userEmail == e)).length →
      ((cleanDuplicateAgreements l).filter (fun a => a.userEmail == e)).length = 1) ∧
    (∀ e, (l.filter (fun a => a.userEmail == e)).length = 1 →
      (cleanDuplicateAgreements l).filter (fun a => a.userEmail == e) =
        l.filter (fun a => a.userEmail == e)) := by
  refine ⟨List.filter_sublist l, ?_, ?_, ?_⟩
  · intro e
    rw [filter_cleanDuplicateAgreements l hids e, List.length_take]
    omega
  · intro e he
    rw [filter_cleanDuplicateAgreements l hids e, List.length_take]
    omega
  · intro e he
    rw [filter_cleanDuplicateAgreements l hids e]
    exact List.take_of_length_le (by omega)

/-- The concrete collection of the C5 and C6 witnesses: two agreements share
`a@x.com`, one more belongs to `b@x.com`. -/
def c5agreements : List Agreement :=
  [{ aid := 1, userName := "T", userEmail := "a@x.com", floorNo := 2, blockName := "B",
     apartmentNo := 5, rent := 100, status := "pending", createdAt := 0, updatedAt := none },
   { aid := 2, userName := "T", userEmail := "a@x.com", floorNo := 3, blockName := "C",
     apartmentNo := 6, rent := 120, status := "checked", createdAt := 1, updatedAt := none },
   { aid := 3, userName := "U", userEmail := "b@x.com", floorNo := 4, blockName := "D",
     apartmentNo := 7, rent := 130, status := "pending", createdAt := 2, updatedAt := none }]

/-- Witness for C5 at the concrete collection `c5agreements`. -/
theorem cleanDuplicateAgreements_spec_witness :
    (cleanDuplicateAgreements c5agreements).Sublist c5agreements ∧
    (∀ e, ((cleanDuplicateAgreements c5agreements).filter
      (fun a => a.userEmail == e)).length ≤ 1) ∧
    (∀ e, 1 ≤ (c5agreements.filter (fun a => a.userEmail == e)).length →
      ((cleanDuplicateAgreements c5agreements).filter
        (fun a => a.userEmail == e)).length = 1) ∧
    (∀ e, (c5agreements.filter (fun a => a.userEmail == e)).length = 1 →
      (cleanDuplicateAgreements c5agreements).filter (fun a => a.userEmail == e) =
        c5agreements.filter (fun a => a.userEmail == e)) :=
  cleanDuplicateAgreements_spec c5agreements (by decide)

/-- Claim C6: the startup reconciler is idempotent — immediately after one
pass (with distinct `_id` values) the second pass schedules no deletions at
all, and leaves the collection unchanged. -/
theorem cleanDuplicateAgreements_idempotent (l : List Agreement)
    (hids : (l.map (fun a => a.aid)).Nodup) :
    idsToDelete (cleanDuplicateAgreements l) = [] ∧
    cleanDuplicateAgreements (cleanDuplicateAgreements l) = cleanDuplicateAgreements l := by
  have hnil : idsToDelete (cleanDuplicateAgreements l) = [] := by
    unfold idsToDelete
    rw [List.flatMap_eq_nil_iff]
    intro e _
    have hlen : (agreementGroup (cleanDuplicateAgreements l) e).length ≤ 1 := by
      unfold agreementGroup
      rw [filter_cleanDuplicateAgreements l hids e, List.length_take]
      omega
    unfold duplicateIdsFor
    rw [if_neg (by rw [List.length_map]; omega)]
  have hstep : cleanDuplicateAgreements (cleanDuplicateAgreements l) =
      (cleanDuplicateAgreements l).filter
        (fun a => !(idsToDelete (cleanDuplicateAgreements l)).contains a.aid) := rfl
  refine ⟨hnil, ?_⟩
  rw [hstep, hnil]
  exact List.filter_eq_self.mpr (fun a _ => rfl)

/-- Witness for C6 at the concrete collection `c5agreements`. -/
theorem cleanDuplicateAgreements_idempotent_witness :
    idsToDelete (cleanDuplicateAgreements c5agreements) = [] ∧
    cleanDuplicateAgreements (cleanDuplicateAgreements c5agreements) =
      cleanDuplicateAgreements c5agreements :=
  cleanDuplicateAgreements_idempotent c5agreements (by decide)

/-! ## Listing lemmas -/

/-- Insertion keeps the elements: the sorted insert is a permutation of the
cons. -/
theorem insertByCreatedAtDesc_perm (a : Agreement) (l : List Agreement) :
    (insertByCreatedAtDesc a l).Perm (a :: l) := by
  induction l with
  | nil => exact List.Perm.refl _
  | cons b t ih =>
    rw [insertByCreatedAtDesc]
    by_cases h : b.createdAt < a.createdAt
    · rw [if_pos h]
    · rw [if_neg h]
      exact (ih.cons b).trans (List.Perm.swap a b t)

/-- The listing sort returns a permutation of its input. -/
theorem sortByCreatedAtDesc_perm (l : List Agreement) : (sortByCreatedAtDesc l).Perm l := by
  induction l with
  | nil => exact List.Perm.refl _
  | cons a t ih =>
    rw [sortByCreatedAtDesc]
    exact (insertByCreatedAtDesc_perm a _).trans (ih.cons a)

/-- With a non-empty status query, the listing body holds exactly the
agreements of that status. -/
theorem mem_getAgreementsHandler_some (agreements : List Agreement) (s : String)
    (hs : s ≠ "") (a : Agreement) :
    a ∈ getAgreementsHandler agreements (some s) ↔ a ∈ agreements ∧ a.status = s := by
  unfold getAgreementsHandler
  rw [(sortByCreatedAtDesc_perm _).mem_iff, List.mem_filter]
  simp [agreementsQuery, hs]

/-- Without a status query, the listing body holds every agreement. -/
theorem mem_getAgreementsHandler_none (agreements : List Agreement) (a : Agreement) :
    a ∈ getAgreementsHandler agreements none ↔ a ∈ agreements := by
  unfold getAgreementsHandler
  rw [(sortByCreatedAtDesc_perm _).mem_iff, List.mem_filter]
  simp [agreementsQuery]

/-- Counterexample to C8 as stated: in `src/index.js` the route
`GET /agreements` is guarded only by `optionalJWT`, so a caller whose
resolved role is `"member"` — not `"admin"` — is not rejected: the full
listing is returned. -/
theorem getAgreements_index_not_admin_counterexample :
    findUser [{ email := "m@x.com", name := "M", role := "member" }] "m@x.com" =
      some { email := "m@x.com", name := "M", role := "member" } ∧
    getAgreementsRoute_index (fun _ => VerifyOutcome.ok "m@x.com" none)
      [{ aid := 1, userName := "T", userEmail := "a@x.com", floorNo := 2, blockName := "B",
         apartmentNo := 5, rent := 100, status := "pending", createdAt := 0,
         updatedAt := none }]
      (some "tok") none =
      ListResponse.ok
        [{ aid := 1, userName := "T", userEmail := "a@x.com", floorNo := 2, blockName := "B",
           apartmentNo := 5, rent := 100, status := "pending", createdAt := 0,
           updatedAt := none }] :=
  ⟨rfl, rfl⟩

/-- Claim C8 as amended: only in the `src/unnamed/part_003` revision is
`GET /agreements` an admin operation — with a verifying credential, a caller
whose user record has a role other than `"admin"` is rejected 403 and a caller
with no user record is rejected 404, while an admin caller receives the
listing; in `src/index.js` the route is effectively public (see the
counterexample).  In every revision a supplied non-empty status query filters
the listing to the agreements of that status, and without it the whole
collection is listed. -/
theorem getAgreements_admin_operation
    (verify : String → VerifyOutcome) (users : List UserRec) (agreements : List Agreement)
    (t e : String) (nm : Option String) (status : Option String)
    (hv : verify t = VerifyOutcome.ok e nm) :
    (∀ u, findUser users e = some u → u.role ≠ "admin" →
      getAgreementsRoute_part003 verify users agreements (some t) status =
        ListResponse.reject 403) ∧
    (findUser users e = none →
      getAgreementsRoute_part003 verify users agreements (some t) status =
        ListResponse.reject 404) ∧
    (∀ u, findUser users e = some u → u.role = "admin" →
      getAgreementsRoute_part003 verify users agreements (some t) status =
        ListResponse.ok (getAgreementsHandler agreements status)) ∧
    (∀ s, s ≠ "" → ∀ a, a ∈ getAgreementsHandler agreements (some s) ↔
      a ∈ agreements ∧ a.status = s) ∧
    (∀ a, a ∈ getAgreementsHandler agreements none ↔ a ∈ agreements) := by
  refine ⟨?_, ?_, ?_, ?_, ?_⟩
  · intro u hu hrole
    simp [getAgreementsRoute_part003, verifyJWT, hv, verifyRole_part003, hu, hrole]
  · intro hu
    simp [getAgreementsRoute_part003, verifyJWT, hv, verifyRole_part003, hu]
  · intro u hu hrole
    simp [getAgreementsRoute_part003, verifyJWT, hv, verifyRole_part003, hu, hrole]
  · intro s hs a
    exact mem_getAgreementsHandler_some agreements s hs a
  · intro a
    exact mem_getAgreementsHandler_none agreements a

/-- Witness for the amended C8 at a concrete admin caller and a concrete
member caller over a two-agreement collection. -/
theorem getAgreements_admin_operation_witness :
    (∀ u, findUser [{ email := "adm@x.com", name := "A", role := "admin" }] "adm@x.com" =
        some u → u.role ≠ "admin" →
      getAgreementsRoute_part003 (fun _ => VerifyOutcome.ok "adm@x.com" none)
        [{ email := "adm@x.com", name := "A", role := "admin" }] [] (some "tok")
        (some "pending") = ListResponse.reject 403) ∧
    (findUser [{ email := "adm@x.com", name := "A", role := "admin" }] "adm@x.com" = none →
      getAgreementsRoute_part003 (fun _ => VerifyOutcome.ok "adm@x.com" none)
        [{ email := "adm@x.com", name := "A", role := "admin" }] [] (some "tok")
        (some "pending") = ListResponse.reject 404) ∧
    (∀ u, findUser [{ email := "adm@x.com", name := "A", role := "admin" }] "adm@x.com" =
        some u → u.role = "admin" →
      getAgreementsRoute_part003 (fun _ => VerifyOutcome.ok "adm@x.com" none)
        [{ email := "adm@x.com", name := "A", role := "admin" }] [] (some "tok")
        (some "pending") = ListResponse.ok (getAgreementsHandler [] (some "pending"))) ∧
    (∀ s, s ≠ "" → ∀ a, a ∈ getAgreementsHandler [] (some s) ↔ a ∈ ([] : List Agreement) ∧
      a.status = s) ∧
    (∀ a, a ∈ getAgreementsHandler [] none ↔ a ∈ ([] : List Agreement)) :=
  getAgreements_admin_operation (fun _ => VerifyOutcome.ok "adm@x.com" none)
    [{ email := "adm@x.com", name := "A", role := "admin" }] [] "tok" "adm@x.com" none
    (some "pending") rfl

/-! ## Status-update lemmas -/

/-- The matched count of the part_003 `updateOne` is positive exactly when
some document has the requested id. -/
theorem matched_update_part003 (l : List Agreement) (id : Nat) (s : String) :
    0 < (updateOneAgreementStatus_part003 l id s).2.1 ↔ ∃ a ∈ l, a.aid = id := by
  induction l with
  | nil => simp [updateOneAgreementStatus_part003]
  | cons a t ih =>
    simp only [updateOneAgreementStatus_part003]
    cases hpa : (a.aid == id) with
    | true =>
      refine iff_of_true (by simp) ⟨a, List.mem_cons_self a t, eq_of_beq hpa⟩
    | false =>
      constructor
      · intro hpos
        obtain ⟨x, hx, hxe⟩ := ih.mp hpos
        exact ⟨x, List.mem_cons_of_mem a hx, hxe⟩
      · rintro ⟨x, hx, hxe⟩
        rcases List.mem_cons.mp hx with h1 | h2
        · exfalso
          rw [h1] at hxe
          rw [show (a.aid == id) = true by simp [hxe]] at hpa
          simp at hpa
        · exact ih.mpr ⟨x, h2, hxe⟩

/-- The modified count of the `src/index.js` `updateOne` is read off the first
matching document: zero when there is none, and zero when the `$set` leaves
the first match unchanged. -/
theorem modified_update_index (l : List Agreement) (id : Nat) (s : String) (now : Nat) :
    (updateOneAgreementStatus_index l id s now).2.2 =
      match l.find? (fun a => a.aid == id) with
      | none => 0
      | some a => if setAgreementStatus a s now == a then 0 else 1 := by
  induction l with
  | nil => rfl
  | cons a t ih =>
    simp only [updateOneAgreementStatus_index]
    cases hpa : (a.aid == id) with
    | true =>
      simp only [List.find?_cons]
      rw [hpa]
      simp
    | false =>
      simp only [List.find?_cons]
      rw [hpa]
      simpa using ih

/-- The part_003 status handler at a non-empty status and well-formed id,
reduced to its `matchedCount` test. -/
theorem patch_part003_eval (l : List Agreement) (id : Nat) (s : String) (hs : s ≠ "") :
    patchAgreementStatus_part003 l id true (some s) =
      (if 0 < (updateOneAgreementStatus_part003 l id s).2.1
        then ((updateOneAgreementStatus_part003 l id s).1, 200)
        else ((updateOneAgreementStatus_part003 l id s).1, 404)) := by
  simp [patchAgreementStatus_part003, hs]

/-- The `src/index.js` status handler at a non-empty status, reduced to its
`modifiedCount` test. -/
theorem patch_index_eval (l : List Agreement) (id : Nat) (s : String) (now : Nat)
    (hs : s ≠ "") :
    patchAgreementStatus_index l id (some s) now =
      (if 0 < (updateOneAgreementStatus_index l id s now).2.2
        then ((updateOneAgreementStatus_index l id s now).1, 200)
        else ((updateOneAgreementStatus_index l id s now).1, 404)) := by
  simp [patchAgreementStatus_index, hs]

/-- Counterexample to C9 as stated: in `src/index.js` the handler keys its 404
on `modifiedCount` ("Not found or unchanged"), so a PATCH whose `$set` leaves
the matching record unchanged — same status and an update timestamp equal to
the stored one — answers 404 although a record with the given id exists. -/
theorem patchAgreementStatus_index_unchanged_counterexample :
    (⟨1, "T", "a@x.com", 1, "A", 2, 10, "checked", 0, some 7⟩ : Agreement).aid = 1 ∧
    patchAgreementStatus_index
      [⟨1, "T", "a@x.com", 1, "A", 2, 10, "checked", 0, some 7⟩] 1 (some "checked") 7 =
      ([⟨1, "T", "a@x.com", 1, "A", 2, 10, "checked", 0, some 7⟩], 404) :=
  ⟨rfl, by decide⟩

/-- Claim C9 as amended: in the `src/unnamed/part_003` revision (which checks
`matchedCount`) the handler with a non-missing status and well-formed id
answers 404 exactly when no record has the given id, and answers 200 whenever
a matching record exists — including when its stored status already equals the
request; in `src/index.js` (which checks `modifiedCount`) the handler answers
404 exactly when there is no match or the `$set` leaves the first match
unchanged. -/
theorem patchAgreementStatus_spec (l : List Agreement) (id : Nat) (s : String) (now : Nat)
    (hs : s ≠ "") :
    ((patchAgreementStatus_part003 l id true (some s)).2 = 404 ↔ ∀ a ∈ l, a.aid ≠ id) ∧
    (∀ a ∈ l, a.aid = id → (patchAgreementStatus_part003 l id true (some s)).2 = 200) ∧
    ((patchAgreementStatus_index l id (some s) now).2 = 404 ↔
      (l.find? (fun a => a.aid == id) = none ∨
        ∃ a, l.find? (fun a => a.aid == id) = some a ∧ setAgreementStatus a s now = a)) := by
  refine ⟨?_, ?_, ?_⟩
  · rw [patch_part003_eval l id s hs]
    by_cases hm : 0 < (updateOneAgreementStatus_part003 l id s).2.1
    · rw [if_pos hm]
      refine iff_of_false (by simp) ?_
      obtain ⟨a, ha, hae⟩ := (matched_update_part003 l id s).mp hm
      intro hall
      exact hall a ha hae
    · rw [if_neg hm]
      refine iff_of_true rfl ?_
      intro a ha hae
      exact hm ((matched_update_part003 l id s).mpr ⟨a, ha, hae⟩)
  · intro a ha hae
    rw [patch_part003_eval l id s hs]
    rw [if_pos ((matched_update_part003 l id s).mpr ⟨a, ha, hae⟩)]
  · rw [patch_index_eval l id s now hs]
    cases hf : l.find? (fun a => a.aid == id) with
    | none =>
      rw [show (updateOneAgreementStatus_index l id s now).2.2 = 0 from by
        rw [modified_update_index l id s now, hf]]
      refine iff_of_true ?_ (Or.inl rfl)
      rw [if_neg (by omega)]
    | some a =>
      by_cases heq : setAgreementStatus a s now = a
      · rw [show (updateOneAgreementStatus_index l id s now).2.2 = 0 from by
          rw [modified_update_index l id s now, hf]; simp [heq]]
        refine iff_of_true ?_ (Or.inr ⟨a, rfl, heq⟩)
        rw [if_neg (by omega)]
      · rw [show (updateOneAgreementStatus_index l id s now).2.2 = 1 from by
          rw [modified_update_index l id s now, hf]; simp [heq]]
        refine iff_of_false ?_ ?_
        · rw [if_pos (by omega)]
          simp
        · rintro (hnone | ⟨b, hb, hbe⟩)
          · exact Option.noConfusion hnone
          · have hba : a = b := Option.some.inj hb
            rw [← hba] at hbe
            exact heq hbe

/-- Witness for the amended C9 at a concrete one-record collection. -/
theorem patchAgreementStatus_spec_witness :
    ((patchAgreementStatus_part003
        [⟨2, "T", "b@x.com", 1, "A", 2, 10, "pending", 0, none⟩] 2 true
        (some "checked")).2 = 404 ↔
      ∀ a ∈ [(⟨2, "T", "b@x.com", 1, "A", 2, 10, "pending", 0, none⟩ : Agreement)],
        a.aid ≠ 2) ∧
    (∀ a ∈ [(⟨2, "T", "b@x.com", 1, "A", 2, 10, "pending", 0, none⟩ : Agreement)],
      a.aid = 2 →
      (patchAgreementStatus_part003
        [⟨2, "T", "b@x.com", 1, "A", 2, 10, "pending", 0, none⟩] 2 true
        (some "checked")).2 = 200) ∧
    ((patchAgreementStatus_index
        [⟨2, "T", "b@x.com", 1, "A", 2, 10, "pending", 0, none⟩] 2 (some "checked") 5).2 =
          404 ↔
      ([(⟨2, "T", "b@x.com", 1, "A", 2, 10, "pending", 0, none⟩ : Agreement)].find?
          (fun a => a.aid == 2) = none ∨
        ∃ a, [(⟨2, "T", "b@x.com", 1, "A", 2, 10, "pending", 0, none⟩ : Agreement)].find?
            (fun a => a.aid == 2) = some a ∧ setAgreementStatus a "checked" 5 = a)) :=
  patchAgreementStatus_spec [⟨2, "T", "b@x.com", 1, "A", 2, 10, "pending", 0, none⟩]
    2 "checked" 5 (by decide)

end TowerTrack
